import Mathlib

/-!
# Verification of the JackPress image-optimizer batch pipeline

A shallow embedding of the batch compression pipeline in `source/main.py`:
the JPEG quality mapper, the file collector, tool-path resolution, the
external-tool subprocess contract, the image transformer (alpha flattening
and resizing), the progress tracker, and the worker's completion-consumption
loop.  Python machine reals are modelled as exact rationals (`ℚ`) with
`Int.floor` standing for Python's `int()` truncation on non-negative values;
Python `int` is modelled as `ℤ` (or `ℕ` where the source only ever assigns
non-negative values).  Filesystem paths are lists of components relative to
the input root.
-/

/- Constants from `main.py` (class `Constants`). -/
namespace Constants

def MIN_QUALITY : ℤ := 10

def MAX_QUALITY : ℤ := 95

def OUTPUT_FOLDER : String := "jackpressed"

def DEFAULT_WIDTH : ℕ := 1024

end Constants

/-- `CompressionConfig` dataclass.  `input_dir` is kept abstract; paths that
the collector sees are modelled relative to it. -/
structure CompressionConfig where
  process_png : Bool
  process_jpg : Bool
  keep_original_size : Bool
  target_width : ℕ
  compression_level : ℤ
  png_tool : String
  preserve_alpha : Bool

/-- `JPEGCompressionStrategy._calculate_quality`.  The Python source computes
`normalized = (level - 1) / 99` in floating point and truncates
`normalized**2 * (MAX_QUALITY - MIN_QUALITY)` with `int()`; since that value
is non-negative, truncation is `Int.floor`, modelled here over `ℚ`. -/
def calculate_quality (compression_level : ℤ) : ℤ :=
  let lvl : ℤ := max 1 (min 100 compression_level)
  let normalized : ℚ := ((lvl : ℚ) - 1) / 99
  let quality : ℤ := Constants.MIN_QUALITY +
    ⌊normalized ^ 2 * (((Constants.MAX_QUALITY : ℚ)) - (Constants.MIN_QUALITY : ℚ))⌋
  max Constants.MIN_QUALITY (min quality Constants.MAX_QUALITY)

/-- The clamp `max(1, min(100, level))` is monotone. -/
theorem clamp_mono {l1 l2 : ℤ} (h : l1 ≤ l2) :
    max 1 (min 100 l1) ≤ max 1 (min 100 l2) :=
  max_le_max le_rfl (min_le_min le_rfl h)

/-- C4: for every `compression_level` in `[1,100]`, the JPEG quality mapper
output lies in `[10,95]`, and the mapping is monotonically non-decreasing:
`l1 ≤ l2` implies `calculate_quality l1 ≤ calculate_quality l2`. -/
theorem C4_quality_mapper (l1 l2 : ℤ)
    (h1 : 1 ≤ l1) (h2 : l1 ≤ 100) (h3 : 1 ≤ l2) (h4 : l2 ≤ 100) (h5 : l1 ≤ l2) :
    (10 ≤ calculate_quality l1 ∧ calculate_quality l1 ≤ 95) ∧
    (10 ≤ calculate_quality l2 ∧ calculate_quality l2 ≤ 95) ∧
    calculate_quality l1 ≤ calculate_quality l2 := by
  have hrange : ∀ l : ℤ, 10 ≤ calculate_quality l ∧ calculate_quality l ≤ 95 := by
    intro l
    unfold calculate_quality
    simp only [Constants.MIN_QUALITY, Constants.MAX_QUALITY]
    exact ⟨le_max_left _ _, max_le (by norm_num) (min_le_right _ _)⟩
  refine ⟨hrange l1, hrange l2, ?_⟩
  unfold calculate_quality
  have hc : max 1 (min 100 l1) ≤ max 1 (min 100 l2) := clamp_mono h5
  have hc1 : (1 : ℤ) ≤ max 1 (min 100 l1) := le_max_left _ _
  have hn0 : (0 : ℚ) ≤ ((max 1 (min 100 l1) : ℤ) : ℚ) - 1 := by
    have : ((1 : ℤ) : ℚ) ≤ ((max 1 (min 100 l1) : ℤ) : ℚ) := Int.cast_le.mpr hc1
    push_cast at this ⊢
    linarith
  have hnle : ((max 1 (min 100 l1) : ℤ) : ℚ) - 1 ≤ ((max 1 (min 100 l2) : ℤ) : ℚ) - 1 := by
    have : ((max 1 (min 100 l1) : ℤ) : ℚ) ≤ ((max 1 (min 100 l2) : ℤ) : ℚ) := Int.cast_le.mpr hc
    linarith
  have hdiv0 : (0 : ℚ) ≤ (((max 1 (min 100 l1) : ℤ) : ℚ) - 1) / 99 := by positivity
  have hdiv : (((max 1 (min 100 l1) : ℤ) : ℚ) - 1) / 99 ≤
      (((max 1 (min 100 l2) : ℤ) : ℚ) - 1) / 99 := by
    apply div_le_div_of_nonneg_right hnle
    norm_num
  have hsq : ((((max 1 (min 100 l1) : ℤ) : ℚ) - 1) / 99) ^ 2 ≤
      ((((max 1 (min 100 l2) : ℤ) : ℚ) - 1) / 99) ^ 2 :=
    pow_le_pow_left₀ hdiv0 hdiv 2
  have hmul : ((((max 1 (min 100 l1) : ℤ) : ℚ) - 1) / 99) ^ 2 *
        (((Constants.MAX_QUALITY : ℤ) : ℚ) - ((Constants.MIN_QUALITY : ℤ) : ℚ)) ≤
      ((((max 1 (min 100 l2) : ℤ) : ℚ) - 1) / 99) ^ 2 *
        (((Constants.MAX_QUALITY : ℤ) : ℚ) - ((Constants.MIN_QUALITY : ℤ) : ℚ)) := by
    apply mul_le_mul_of_nonneg_right hsq
    simp [Constants.MIN_QUALITY, Constants.MAX_QUALITY]
    norm_num
  have hfl := Int.floor_le_floor hmul
  exact max_le_max le_rfl (min_le_min (add_le_add_left hfl _) le_rfl)

/-- C4 witness at `l1 = 30`, `l2 = 60`. -/
theorem C4_quality_mapper_witness :
    (10 ≤ calculate_quality 30 ∧ calculate_quality 30 ≤ 95) ∧
    (10 ≤ calculate_quality 60 ∧ calculate_quality 60 ≤ 95) ∧
    calculate_quality 30 ≤ calculate_quality 60 :=
  C4_quality_mapper 30 60 (by norm_num) (by norm_num) (by norm_num) (by norm_num)
    (by norm_num)

/-- `ProgressTracker` state.  `start_time` is abstracted away: `update` takes
the elapsed time `time.time() - start_time` as a parameter.  `processed` is
a `ℕ` because the source only ever sets it to `0` and increments it. -/
structure ProgressTracker where
  total : ℕ
  processed : ℕ

/-- Result of `ProgressTracker.update`: either the `"Calculating..."` branch
or the ETA value `(elapsed / processed) * (total - processed)` (the
`strftime` formatting of that value is opaque and not modelled). -/
inductive EtaMessage
  | calculating
  | eta (value : ℚ)
deriving DecidableEq

/-- `ProgressTracker.update`: increments `processed`, then tests
`processed == 0`, then divides by `processed`. -/
def ProgressTracker.update (t : ProgressTracker) (elapsed : ℚ) :
    ProgressTracker × EtaMessage :=
  let t' : ProgressTracker := { t with processed := t.processed + 1 }
  if t'.processed = 0 then (t', EtaMessage.calculating)
  else (t', EtaMessage.eta ((elapsed / (t'.processed : ℚ)) *
    ((t.total : ℚ) - (t'.processed : ℚ))))

/-- C10: in `ProgressTracker.update` the counter is incremented before the
`processed == 0` guard, so on every call (every reachable state has a
`ℕ`-valued counter, starting from `processed = 0`) the counter is at least 1
at the check: the `"Calculating..."` branch is unreachable dead code, the
divisor of the ETA computation is `processed + 1 ≠ 0`, and the ETA branch is
always taken. -/
theorem C10_tracker_guard_dead (t : ProgressTracker) (elapsed : ℚ) :
    (t.update elapsed).1.processed = t.processed + 1 ∧
    t.processed + 1 ≠ 0 ∧
    1 ≤ (t.update elapsed).1.processed ∧
    (t.update elapsed).2 ≠ EtaMessage.calculating ∧
    (t.update elapsed).2 = EtaMessage.eta ((elapsed / ((t.processed + 1 : ℕ) : ℚ)) *
      ((t.total : ℚ) - ((t.processed + 1 : ℕ) : ℚ))) := by
  simp [ProgressTracker.update]

/-- PIL image modes used by the program. -/
inductive ImageMode
  | RGB
  | RGBA
  | LA
  | L
deriving DecidableEq

/-- One pixel; channels are 8-bit values modelled as `ℕ` (validity `≤ 255`
is carried as a hypothesis where it matters).  For mode `L`/`LA` the
luminance is stored in `r`; pixels of modes without alpha use `a = 255`. -/
structure Pixel where
  r : ℕ
  g : ℕ
  b : ℕ
  a : ℕ
deriving DecidableEq

/-- A PIL image: mode, size, and pixel access. -/
structure PILImage where
  mode : ImageMode
  width : ℕ
  height : ℕ
  pix : ℕ → ℕ → Pixel

/-- PIL `Image.convert` restricted to the targets the program uses
(`"RGB"` and the internal `LA → RGBA` conversion inside
`remove_alpha_channel`).  RGBA→RGB drops the alpha channel; L/LA replicate
luminance into the three colour channels. -/
def pil_convert (img : PILImage) (target : ImageMode) : PILImage :=
  { mode := target, width := img.width, height := img.height,
    pix := fun x y =>
      let p := img.pix x y
      match img.mode, target with
      | ImageMode.RGBA, ImageMode.RGB => ⟨p.r, p.g, p.b, 255⟩
      | ImageMode.LA, ImageMode.RGB => ⟨p.r, p.r, p.r, 255⟩
      | ImageMode.L, ImageMode.RGB => ⟨p.r, p.r, p.r, 255⟩
      | ImageMode.RGB, ImageMode.RGB => p
      | ImageMode.LA, ImageMode.RGBA => ⟨p.r, p.r, p.r, p.a⟩
      | ImageMode.L, ImageMode.RGBA => ⟨p.r, p.r, p.r, 255⟩
      | ImageMode.RGB, ImageMode.RGBA => ⟨p.r, p.g, p.b, 255⟩
      | _, _ => p }

/-- PIL `Image.new("RGB", size, (255, 255, 255))`: an opaque white RGB
image. -/
def pil_new_white (width height : ℕ) : PILImage :=
  { mode := ImageMode.RGB, width := width, height := height,
    pix := fun _ _ => ⟨255, 255, 255, 255⟩ }

/-- PIL's 8-bit `a * b / 255` with rounding (the `MULDIV255` macro used by
`Image.paste` when blending through a mask). -/
def muldiv255 (a b : ℕ) : ℕ :=
  let t := a * b + 128
  (t / 256 + t) / 256

/-- One channel of PIL's paste-through-mask blend:
`out = MULDIV255(bg, 255 - m) + MULDIV255(src, m)`. -/
def blendChannel (bg src m : ℕ) : ℕ :=
  muldiv255 bg (255 - m) + muldiv255 src m

/-- PIL `background.paste(src, mask)` for an RGB background: the source is
first converted to the background's mode, then each colour channel is
blended through the 8-bit mask. -/
def pil_paste_mask (background src : PILImage) (mask : ℕ → ℕ → ℕ) : PILImage :=
  { mode := background.mode, width := background.width, height := background.height,
    pix := fun x y =>
      let s := (pil_convert src background.mode).pix x y
      let b := background.pix x y
      let m := mask x y
      ⟨blendChannel b.r s.r m, blendChannel b.g s.g m, blendChannel b.b s.b m, 255⟩ }

/-- `ImageProcessor.remove_alpha_channel`: RGBA/LA images are composited
onto an opaque white background of the same size using the alpha band
(`split()[3]` for RGBA, `split()[1]` for LA, both stored in `Pixel.a`)
as the paste mask; every other mode is converted to RGB. -/
def remove_alpha_channel (img : PILImage) : PILImage :=
  match img.mode with
  | ImageMode.RGBA =>
      let background := pil_new_white img.width img.height
      pil_paste_mask background img (fun x y => (img.pix x y).a)
  | ImageMode.LA =>
      let background := pil_new_white img.width img.height
      pil_paste_mask background (pil_convert img ImageMode.RGBA)
        (fun x y => (img.pix x y).a)
  | _ => pil_convert img ImageMode.RGB

/-- PIL resampling filters. -/
inductive ResampleFilter
  | NEAREST
  | LANCZOS
  | BILINEAR
  | BICUBIC
deriving DecidableEq

/-- `ImageProcessor.resize_image`.  PIL's `Image.resize` is an external
collaborator, passed in as `pil_resize`; the source computes
`ratio = target_width / img.width` and `height = int(img.height * ratio)`
(in floating point; modelled exactly over `ℚ`, with `int()` as floor since
the value is non-negative), and `img.copy()` of an immutable image value is
the value itself. -/
def resize_image (pil_resize : PILImage → ℕ → ℕ → ResampleFilter → PILImage)
    (img : PILImage) (target_width : ℕ) : PILImage :=
  if img.width = target_width then img
  else
    let ratio : ℚ := (target_width : ℚ) / (img.width : ℚ)
    let height : ℕ := Int.toNat ⌊(img.height : ℚ) * ratio⌋
    pil_resize img target_width height ResampleFilter.LANCZOS

/-- Truncating `height * (target / width)` over `ℚ` is natural-number
division `height * target / width`. -/
theorem floor_mul_ratio_eq_div (h w ow : ℕ) :
    Int.toNat ⌊(h : ℚ) * ((w : ℚ) / (ow : ℚ))⌋ = h * w / ow := by
  have h1 : (h : ℚ) * ((w : ℚ) / (ow : ℚ)) = ((h * w : ℕ) : ℚ) / ((ow : ℕ) : ℚ) := by
    push_cast
    ring
  rw [h1, Int.floor_toNat, Nat.floor_div_eq_div]

/-- C8: `resize_image img w` returns the image itself (PIL `copy()`:
identical pixel data and size) when `img.width = w`; otherwise it calls the
resampler with width `w`, height `img.height * w / img.width` (the exact
value of `int(img.height * (w / img.width))`, truncated toward zero) and the
Lanczos filter, so the result has exactly that size whenever the resampler
honours the requested size. -/
theorem C8_resize_image (pil_resize : PILImage → ℕ → ℕ → ResampleFilter → PILImage)
    (img : PILImage) (w : ℕ)
    (hres : ∀ i a b f, (pil_resize i a b f).width = a ∧ (pil_resize i a b f).height = b)
    (hw : 0 < img.width) :
    (img.width = w → resize_image pil_resize img w = img) ∧
    (img.width ≠ w →
      resize_image pil_resize img w =
        pil_resize img w (img.height * w / img.width) ResampleFilter.LANCZOS ∧
      (resize_image pil_resize img w).width = w ∧
      (resize_image pil_resize img w).height = img.height * w / img.width) := by
  constructor
  · intro heq
    simp [resize_image, heq]
  · intro hne
    have hcall : resize_image pil_resize img w =
        pil_resize img w (img.height * w / img.width) ResampleFilter.LANCZOS := by
      simp only [resize_image, if_neg hne]
      rw [floor_mul_ratio_eq_div]
    exact ⟨hcall, by rw [hcall]; exact (hres _ _ _ _).1,
      by rw [hcall]; exact (hres _ _ _ _).2⟩

/-- A concrete RGB test image, 4 pixels wide and 3 high. -/
def example_rgb : PILImage :=
  { mode := ImageMode.RGB, width := 4, height := 3,
    pix := fun _ _ => ⟨10, 20, 30, 255⟩ }

/-- A concrete resampler honouring the requested output size. -/
def example_resize : PILImage → ℕ → ℕ → ResampleFilter → PILImage :=
  fun img w h _ => { mode := img.mode, width := w, height := h, pix := img.pix }

/-- C8 witness: resizing the 4×3 image to width 2 requests height
`3 * 2 / 4 = 1` with the Lanczos filter. -/
theorem C8_resize_image_witness :
    resize_image example_resize example_rgb 2 =
      example_resize example_rgb 2 1 ResampleFilter.LANCZOS ∧
    (resize_image example_resize example_rgb 2).width = 2 ∧
    (resize_image example_resize example_rgb 2).height = 1 :=
  (C8_resize_image example_resize example_rgb 2 (fun _ _ _ _ => ⟨rfl, rfl⟩)
    (by norm_num [example_rgb])).2 (by norm_num [example_rgb])

/-- `MULDIV255` of anything with a zero mask weight is 0. -/
theorem muldiv255_zero (a : ℕ) : muldiv255 a 0 = 0 := by
  simp only [muldiv255, Nat.mul_zero]

set_option maxRecDepth 10000 in
/-- `MULDIV255` with full mask weight 255 is the identity on 8-bit values. -/
theorem muldiv255_full : ∀ c : ℕ, c ≤ 255 → muldiv255 c 255 = c := by decide

/-- Blending through a fully opaque mask returns the source channel. -/
theorem blendChannel_opaque (bg c : ℕ) (hc : c ≤ 255) : blendChannel bg c 255 = c := by
  unfold blendChannel
  rw [show 255 - 255 = 0 from rfl, muldiv255_zero, muldiv255_full c hc, Nat.zero_add]

/-- C9: `remove_alpha_channel` always yields an RGB image of identical
dimensions (RGBA/LA images are composited onto an opaque white background of
the same size through their alpha band; every other mode is converted to
RGB), and on a fully opaque RGBA image (alpha = 255 at every pixel, channels
8-bit) every pixel of the result equals the RGB-converted original: no white
bleed. -/
theorem C9_remove_alpha (img : PILImage) :
    ((remove_alpha_channel img).mode = ImageMode.RGB ∧
     (remove_alpha_channel img).width = img.width ∧
     (remove_alpha_channel img).height = img.height) ∧
    (img.mode = ImageMode.RGBA →
      (∀ x y, (img.pix x y).a = 255) →
      (∀ x y, (img.pix x y).r ≤ 255 ∧ (img.pix x y).g ≤ 255 ∧ (img.pix x y).b ≤ 255) →
      ∀ x y, (remove_alpha_channel img).pix x y =
        (pil_convert img ImageMode.RGB).pix x y) := by
  obtain ⟨m, w, h, pix⟩ := img
  constructor
  · cases m <;>
      simp [remove_alpha_channel, pil_paste_mask, pil_new_white, pil_convert]
  · intro hm ha hv x y
    cases hm
    obtain ⟨hr, hg, hb⟩ := hv x y
    have ha' := ha x y
    simp only [remove_alpha_channel, pil_paste_mask, pil_new_white, pil_convert] at *
    rw [ha', blendChannel_opaque _ _ hr, blendChannel_opaque _ _ hg,
      blendChannel_opaque _ _ hb]

/-- A concrete fully opaque RGBA image. -/
def example_rgba : PILImage :=
  { mode := ImageMode.RGBA, width := 1, height := 1,
    pix := fun _ _ => ⟨12, 34, 56, 255⟩ }

/-- C9 witness on the concrete opaque RGBA image. -/
theorem C9_remove_alpha_witness :
    (remove_alpha_channel example_rgba).pix 0 0 =
      (pil_convert example_rgba ImageMode.RGB).pix 0 0 :=
  (C9_remove_alpha example_rgba).2 rfl (fun _ _ => rfl)
    (fun _ _ => ⟨by norm_num [example_rgba], by norm_num [example_rgba],
      by norm_num [example_rgba]⟩) 0 0

/-- Python `str.lower()` restricted to ASCII (the only characters in the
extension sets being compared), written over the character list so it
evaluates by kernel reduction. -/
def str_lower (s : String) : String :=
  String.mk (s.data.map Char.toLower)

/-- Python `Path.parents` for a path given as components relative to the
input root: every strict prefix (`.` up to the immediate parent). -/
def pathParents (comps : List String) : List (List String) :=
  (List.range comps.length).map (fun n => comps.take n)

/-- Index of the last `'.'` in a component, Python `str.rfind('.')`. -/
def rfindDot (cs : List Char) : Option ℕ :=
  match cs.reverse.findIdx? (fun c => c == '.') with
  | none => none
  | some j => some (cs.length - 1 - j)

/-- Python `Path.suffix` of a file name: the part from the last dot,
provided that dot is neither the first nor the last character. -/
def pathSuffix (name : String) : String :=
  match rfindDot name.data with
  | none => ""
  | some i =>
      if 0 < i && i + 1 < name.data.length then String.mk (name.data.drop i) else ""

/-- `Worker._get_extensions`: `.png` when PNG processing is enabled, then
`.jpg`/`.jpeg` when JPEG processing is enabled. -/
def get_extensions (config : CompressionConfig) : List String :=
  (if config.process_png then [".png"] else []) ++
  (if config.process_jpg then [".jpg", ".jpeg"] else [])

/-- `Worker._collect_files`: keep an entry `f` (components relative to the
input root, as produced by `rglob('*')`) when the output folder is not among
`f.parents` and `f.suffix.lower()` is in the enabled extension list. -/
def collect_files (config : CompressionConfig) (entries : List (List String)) :
    List (List String) :=
  entries.filter (fun f =>
    !((pathParents f).contains [Constants.OUTPUT_FOLDER]) &&
    (get_extensions config).contains (str_lower (pathSuffix (f.getLastD ""))))

/-- Modelled from the spec wording: the entry's extension (lower-cased)
matches the enabled set — `.png` when `process_png`, `.jpg`/`.jpeg` when
`process_jpg`. -/
def specExtensionMatch (config : CompressionConfig) (f : List String) : Prop :=
  (config.process_png = true ∧ str_lower (pathSuffix (f.getLastD "")) = ".png") ∨
  (config.process_jpg = true ∧
    (str_lower (pathSuffix (f.getLastD "")) = ".jpg" ∨
     str_lower (pathSuffix (f.getLastD "")) = ".jpeg"))

/-- Modelled from the spec wording: the entry's path lies strictly within
the output subtree `<root>/jackpressed`. -/
def specInOutputSubtree (f : List String) : Prop :=
  [Constants.OUTPUT_FOLDER] <+: f ∧ f ≠ [Constants.OUTPUT_FOLDER]

/-- The output folder appears among an entry's parents exactly when the
entry lies strictly within the output subtree. -/
theorem parents_contains_iff (f : List String) (d : String) :
    ((pathParents f).contains [d] = true) ↔ ([d] <+: f ∧ f ≠ [d]) := by
  rw [List.elem_iff]
  simp only [pathParents, List.mem_map, List.mem_range]
  constructor
  · rintro ⟨n, hn, ht⟩
    refine ⟨ht ▸ List.take_prefix n f, ?_⟩
    rintro rfl
    simp only [List.length_singleton] at hn
    interval_cases n
    simp at ht
  · rintro ⟨⟨t, rfl⟩, hne⟩
    have hht : t ≠ [] := by rintro rfl; simp at hne
    refine ⟨1, ?_, by simp⟩
    simp [List.length_pos, hht]

/-- Membership in `_get_extensions` is exactly the spec's enabled-set
description. -/
theorem extensions_contains_iff (config : CompressionConfig) (s : String) :
    ((get_extensions config).contains s = true) ↔
      ((config.process_png = true ∧ s = ".png") ∨
       (config.process_jpg = true ∧ (s = ".jpg" ∨ s = ".jpeg"))) := by
  rw [List.elem_iff]
  cases hp : config.process_png <;> cases hj : config.process_jpg <;>
    simp [get_extensions, hp, hj]

/-- The configuration of the spec's collector example: both formats
enabled. -/
def example_config : CompressionConfig :=
  { process_png := true, process_jpg := true, keep_original_size := true,
    target_width := 1024, compression_level := 80, png_tool := "pngquant",
    preserve_alpha := true }

/-- C5: the collector keeps exactly the entries whose lower-cased extension
is in the enabled set (`.png` when `process_png`, `.jpg`/`.jpeg` when
`process_jpg`) and whose path does not lie within the output subtree
`<root>/jackpressed`; on the example tree
`a.png, b.jpg, c.txt, jackpressed/old.png` with both formats enabled it
returns exactly `a.png` and `b.jpg`. -/
theorem C5_collector :
    (∀ (config : CompressionConfig) (entries : List (List String)) (f : List String),
        f ∈ collect_files config entries ↔
          f ∈ entries ∧ ¬ specInOutputSubtree f ∧ specExtensionMatch config f) ∧
    collect_files example_config
        [["a.png"], ["b.jpg"], ["c.txt"], ["jackpressed"], ["jackpressed", "old.png"]] =
      [["a.png"], ["b.jpg"]] := by
  constructor
  · intro config entries f
    rw [collect_files, List.mem_filter]
    constructor
    · rintro ⟨hf, hb⟩
      rw [Bool.and_eq_true, Bool.not_eq_true'] at hb
      obtain ⟨h1, h2⟩ := hb
      refine ⟨hf, ?_, (extensions_contains_iff _ _).mp h2⟩
      intro hspec
      rw [(parents_contains_iff f Constants.OUTPUT_FOLDER).mpr hspec] at h1
      cases h1
    · rintro ⟨hf, hout, hext⟩
      refine ⟨hf, ?_⟩
      rw [Bool.and_eq_true, Bool.not_eq_true']
      refine ⟨?_, (extensions_contains_iff _ _).mpr hext⟩
      cases hcont : (pathParents f).contains [Constants.OUTPUT_FOLDER]
      · rfl
      · exact absurd ((parents_contains_iff f Constants.OUTPUT_FOLDER).mp hcont) hout
  · decide

/-- The exception taxonomy of `main.py` (`CompressionError` and its
subclasses, plus the `RuntimeError` raised by `_run_command`). -/
inductive CompressionFailure
  | toolNotFound (msg : String)
  | runtimeError (msg : String)
  | invalidConfig (msg : String)
deriving DecidableEq

/-- `Compressor.get_tool_path`: the process-wide tool cache is the explicit
`cache` argument, the filesystem the predicate `fs`, and `base_dir` the
application directory (`Path(__file__).parent`, or the bundled-runtime path
when frozen).  A cache miss resolves `<base_dir>/tools/<tool_name>`, raising
`ToolNotFoundError` when that path does not exist. -/
def get_tool_path (fs : String → Bool) (base_dir : String)
    (cache : List (String × String)) (tool_name : String) :
    Except CompressionFailure (String × List (String × String)) :=
  match cache.lookup tool_name with
  | some p => Except.ok (p, cache)
  | none =>
      let tool_path := base_dir ++ "/tools/" ++ tool_name
      if fs tool_path then Except.ok (tool_path, (tool_name, tool_path) :: cache)
      else Except.error (CompressionFailure.toolNotFound
        (tool_name ++ " not found in tools directory"))

/-- Outcome of `subprocess.Popen` + `communicate()`: exit code and captured
stderr. -/
structure SpawnResult where
  returncode : ℤ
  stderr : String
deriving DecidableEq

/-- `OxiPNGCompressor._build_command`.  `int((level/100) * 6)` is exact
rational truncation, i.e. `level * 6 / 100` on the non-negative levels the
GUI supplies. -/
def oxipng_build_command (fs : String → Bool) (base_dir : String)
    (cache : List (String × String)) (config : CompressionConfig)
    (output_path : String) :
    Except CompressionFailure (List String × List (String × String)) :=
  match get_tool_path fs base_dir cache "oxipng.exe" with
  | Except.error e => Except.error e
  | Except.ok (tp, cache') =>
      let oxipng_level : ℤ := 6 - config.compression_level * 6 / 100
      let cmd := [tp, "--opt", toString oxipng_level, "--force", output_path]
      Except.ok (if config.preserve_alpha then cmd else cmd ++ ["--strip", "safe"], cache')

/-- `PNGQuantCompressor._build_command`. -/
def pngquant_build_command (fs : String → Bool) (base_dir : String)
    (cache : List (String × String)) (config : CompressionConfig)
    (output_path : String) :
    Except CompressionFailure (List String × List (String × String)) :=
  match get_tool_path fs base_dir cache "pngquant.exe" with
  | Except.error e => Except.error e
  | Except.ok (tp, cache') =>
      let quality_min : ℤ := max 0 (config.compression_level - 10)
      let quality_max : ℤ := min 100 config.compression_level
      Except.ok ([tp, "--quality", toString quality_min ++ "-" ++ toString quality_max,
        "--speed", if 50 < config.compression_level then "1" else "3",
        "--force", "--output", output_path, output_path], cache')

/-- `OxiPNGCompressor._run_command` after `communicate()`: on a non-zero
exit code, `output_path.unlink(missing_ok=True)` (the file no longer exists
afterwards, whether or not it existed) and a `RuntimeError` carrying the
captured stderr; on exit code 0 nothing is raised and the output file state
is untouched.  The returned `Bool` is whether the output file exists
afterwards. -/
def oxipng_run_command (res : SpawnResult) (output_exists : Bool) :
    Except CompressionFailure Unit × Bool :=
  if res.returncode ≠ 0 then
    (Except.error (CompressionFailure.runtimeError ("Compression error: " ++ res.stderr)),
      false)
  else (Except.ok (), output_exists)

/-- `PNGQuantCompressor._run_command`: textually identical to the oxipng
variant in the source. -/
def pngquant_run_command (res : SpawnResult) (output_exists : Bool) :
    Except CompressionFailure Unit × Bool :=
  if res.returncode ≠ 0 then
    (Except.error (CompressionFailure.runtimeError ("Compression error: " ++ res.stderr)),
      false)
  else (Except.ok (), output_exists)

/-- Trace of one `compress` call: the outcome, every subprocess spawned
(in order), whether the output file exists afterwards, and the tool cache
afterwards. -/
structure CompressTrace where
  result : Except CompressionFailure Unit
  spawned : List (List String)
  output_exists : Bool
  cache : List (String × String)

/-- `OxiPNGCompressor.compress`: build the command (which resolves the tool
path first), then spawn it and apply the `_run_command` contract.  `spawn`
is the external-process oracle giving each command's exit code and
stderr. -/
def oxipng_compress (fs : String → Bool) (base_dir : String)
    (spawn : List String → SpawnResult) (cache : List (String × String))
    (config : CompressionConfig) (output_path : String) (output_exists : Bool) :
    CompressTrace :=
  match oxipng_build_command fs base_dir cache config output_path with
  | Except.error e => ⟨Except.error e, [], output_exists, cache⟩
  | Except.ok (cmd, cache') =>
      let res := spawn cmd
      let out := oxipng_run_command res output_exists
      ⟨out.1, [cmd], out.2, cache'⟩

/-- `PNGQuantCompressor.compress`. -/
def pngquant_compress (fs : String → Bool) (base_dir : String)
    (spawn : List String → SpawnResult) (cache : List (String × String))
    (config : CompressionConfig) (output_path : String) (output_exists : Bool) :
    CompressTrace :=
  match pngquant_build_command fs base_dir cache config output_path with
  | Except.error e => ⟨Except.error e, [], output_exists, cache⟩
  | Except.ok (cmd, cache') =>
      let res := spawn cmd
      let out := pngquant_run_command res output_exists
      ⟨out.1, [cmd], out.2, cache'⟩

/-- C6: for every tool name that is not yet cached and whose executable does
not exist under the tools directory, `get_tool_path` raises
`ToolNotFoundError`; consequently both PNG compressors fail with that error
before any subprocess is spawned — the spawn trace is empty and the output
file is untouched. -/
theorem C6_tool_not_found (fs : String → Bool) (base_dir : String)
    (cache : List (String × String)) (spawn : List String → SpawnResult)
    (config : CompressionConfig) (output_path : String) (oe : Bool) :
    (∀ tool_name, cache.lookup tool_name = none →
      fs (base_dir ++ "/tools/" ++ tool_name) = false →
      get_tool_path fs base_dir cache tool_name =
        Except.error (CompressionFailure.toolNotFound
          (tool_name ++ " not found in tools directory"))) ∧
    (cache.lookup "oxipng.exe" = none →
      fs (base_dir ++ "/tools/" ++ "oxipng.exe") = false →
      oxipng_compress fs base_dir spawn cache config output_path oe =
        ⟨Except.error (CompressionFailure.toolNotFound
          ("oxipng.exe" ++ " not found in tools directory")), [], oe, cache⟩) ∧
    (cache.lookup "pngquant.exe" = none →
      fs (base_dir ++ "/tools/" ++ "pngquant.exe") = false →
      pngquant_compress fs base_dir spawn cache config output_path oe =
        ⟨Except.error (CompressionFailure.toolNotFound
          ("pngquant.exe" ++ " not found in tools directory")), [], oe, cache⟩) := by
  refine ⟨?_, ?_, ?_⟩
  · intro tool_name hcache hfs
    simp [get_tool_path, hcache, hfs]
  · intro hcache hfs
    simp [oxipng_compress, oxipng_build_command, get_tool_path, hcache, hfs]
  · intro hcache hfs
    simp [pngquant_compress, pngquant_build_command, get_tool_path, hcache, hfs]

/-- C6 witness: empty cache, a filesystem with no tools at all. -/
theorem C6_tool_not_found_witness :
    oxipng_compress (fun _ => false) "base" (fun _ => ⟨0, ""⟩) [] example_config
        "out.png" true =
      ⟨Except.error (CompressionFailure.toolNotFound
        ("oxipng.exe" ++ " not found in tools directory")), [], true, []⟩ :=
  (C6_tool_not_found (fun _ => false) "base" [] (fun _ => ⟨0, ""⟩) example_config
    "out.png" true).2.1 rfl rfl

/-- C7: for both external PNG-tool `_run_command` variants, a non-zero exit
code deletes the output file if present (its absence is not an error: the
post-state is `false` regardless of the pre-state) and raises a compression
failure carrying the captured stderr text, while a zero exit code raises
nothing and leaves the output file in place. -/
theorem C7_run_command_contract (res : SpawnResult) (oe : Bool) :
    (res.returncode ≠ 0 →
      oxipng_run_command res oe =
        (Except.error (CompressionFailure.runtimeError
          ("Compression error: " ++ res.stderr)), false) ∧
      pngquant_run_command res oe =
        (Except.error (CompressionFailure.runtimeError
          ("Compression error: " ++ res.stderr)), false)) ∧
    (res.returncode = 0 →
      oxipng_run_command res oe = (Except.ok (), oe) ∧
      pngquant_run_command res oe = (Except.ok (), oe)) := by
  constructor
  · intro h
    constructor <;> simp [oxipng_run_command, pngquant_run_command, h]
  · intro h
    constructor <;> simp [oxipng_run_command, pngquant_run_command, h]

/-- C7 witness at exit code 1 with stderr `"boom"`, and at exit code 0. -/
theorem C7_run_command_contract_witness :
    (oxipng_run_command ⟨1, "boom"⟩ true =
      (Except.error (CompressionFailure.runtimeError
        ("Compression error: " ++ "boom")), false) ∧
     pngquant_run_command ⟨1, "boom"⟩ true =
      (Except.error (CompressionFailure.runtimeError
        ("Compression error: " ++ "boom")), false)) ∧
    (oxipng_run_command ⟨0, "ok"⟩ false = (Except.ok (), false) ∧
     pngquant_run_command ⟨0, "ok"⟩ false = (Except.ok (), false)) :=
  ⟨(C7_run_command_contract ⟨1, "boom"⟩ true).1 (by decide),
   (C7_run_command_contract ⟨0, "ok"⟩ false).2 rfl⟩

/-- Outcome of one `process_file` task, in completion order
(`as_completed` yields futures in an arbitrary completion order, so
`workerRun` takes the outcome list already in that order).  A `fail`
carries `str(e)` of the exception the task re-raised. -/
inductive TaskOutcome
  | ok
  | fail (msg : String)
deriving DecidableEq

/-- Qt signals emitted by `Worker.run` (the `eta_updated` payload — the
tracker's formatted string — is abstracted; C10 treats the tracker
itself). -/
inductive Event
  | progress_updated (value : ℤ)
  | eta_updated
  | error_occurred (msg : String)
  | finished
deriving DecidableEq

/-- How the run ended: the loop consumed everything (`completed`), broke on
the cancellation flag (`canceled`), or an exception from `future.result()`
reached the outer `except` (`failed`). -/
inductive Terminal
  | completed
  | canceled
  | failed (msg : String)
deriving DecidableEq

/-- `int((i + 1) / total * 100)`: the progress fraction emitted after the
`k`-th consumed completion (exact rational arithmetic; the value is
non-negative, so `int()` truncation is `Int.floor`). -/
def progressValue (k total : ℕ) : ℤ :=
  ⌊((k : ℚ) / (total : ℚ)) * 100⌋

/-- Whether `self._is_canceled` reads true at the top of loop iteration `i`:
the flag is monotone (only ever set), modelled as set from iteration
`cancelFrom` onward (`none` = never set). -/
def cancelHit (cancelFrom : Option ℕ) (i : ℕ) : Bool :=
  match cancelFrom with
  | none => false
  | some k => decide (k ≤ i)

/-- The completion-consumption loop of `Worker.run`, from iteration `i` over
the remaining completion-ordered outcomes: check the cancellation flag and
break; otherwise `future.result()` either re-raises the task's exception
(ending the loop with `Terminal.failed`) or emits a progress and an ETA
event and continues. -/
def consumeFrom (total : ℕ) (cancelFrom : Option ℕ) :
    ℕ → List TaskOutcome → List Event × Terminal
  | _, [] => ([], Terminal.completed)
  | i, t :: rest =>
      if cancelHit cancelFrom i then ([], Terminal.canceled)
      else
        match t with
        | TaskOutcome.fail msg => ([], Terminal.failed msg)
        | TaskOutcome.ok =>
            let r := consumeFrom total cancelFrom (i + 1) rest
            (Event.progress_updated (progressValue (i + 1) total) ::
              Event.eta_updated :: r.1, r.2)

/-- Result of one `Worker.run`: the emitted events, how many submitted
tasks the pool executed, and how the run ended.  `executed` is always the
full submission count: every future is submitted before the loop starts,
and `ThreadPoolExecutor.__exit__` is `shutdown(wait=True)` without
`cancel_futures`, so every submitted task runs to completion before `run`
returns — on the break path, the exception path and the normal path
alike. -/
structure RunResult where
  events : List Event
  executed : ℕ
  terminal : Terminal

/-- `Worker.run` after validation and collection: consume completions, then
either emit `error_occurred(str(e))` (when `future.result()` re-raised) or
emit `finished` (normal completion and cancellation-break alike). -/
def workerRun (tasks : List TaskOutcome) (cancelFrom : Option ℕ) : RunResult :=
  match consumeFrom tasks.length cancelFrom 0 tasks with
  | (evs, Terminal.failed msg) =>
      ⟨evs ++ [Event.error_occurred msg], tasks.length, Terminal.failed msg⟩
  | (evs, t) => ⟨evs ++ [Event.finished], tasks.length, t⟩

/-- The error messages among a run's events (what the GUI accumulates into
its error list). -/
def errorMessages (evs : List Event) : List String :=
  evs.filterMap (fun e =>
    match e with
    | Event.error_occurred m => some m
    | _ => none)

/-- The progress fractions among a run's events, in emission order. -/
def progressEvents (evs : List Event) : List ℤ :=
  evs.filterMap (fun e =>
    match e with
    | Event.progress_updated v => some v
    | _ => none)

/-- The number of failed outcomes in a batch. -/
def countFailures (tasks : List TaskOutcome) : ℕ :=
  (tasks.filter (fun t =>
    match t with
    | TaskOutcome.fail _ => true
    | _ => false)).length

/-- The progress/ETA event pairs emitted for `n` consecutive successful
consumptions starting at iteration `i`. -/
def okEvents (total : ℕ) : ℕ → ℕ → List Event
  | _, 0 => []
  | i, n + 1 =>
      Event.progress_updated (progressValue (i + 1) total) :: Event.eta_updated ::
        okEvents total (i + 1) n

/-- Consuming an all-successful list with the flag never set emits all the
progress/ETA pairs and completes. -/
theorem consume_all_ok (total : ℕ) :
    ∀ (ts : List TaskOutcome) (i : ℕ), (∀ t ∈ ts, t = TaskOutcome.ok) →
      consumeFrom total none i ts = (okEvents total i ts.length, Terminal.completed)
  | [], _, _ => rfl
  | t :: rest, i, h => by
      have ht : t = TaskOutcome.ok := h t (List.mem_cons_self t rest)
      subst ht
      have ih := consume_all_ok total rest (i + 1)
        (fun x hx => h x (List.mem_cons_of_mem _ hx))
      simp [consumeFrom, cancelHit, okEvents, ih]

/-- Consuming a list whose first failure follows `pre` successful outcomes
(flag never set) emits the pairs for `pre` and ends `Terminal.failed`. -/
theorem consume_first_fail (total : ℕ) (msg : String) (post : List TaskOutcome) :
    ∀ (pre : List TaskOutcome) (i : ℕ), (∀ t ∈ pre, t = TaskOutcome.ok) →
      consumeFrom total none i (pre ++ TaskOutcome.fail msg :: post) =
        (okEvents total i pre.length, Terminal.failed msg)
  | [], _, _ => rfl
  | t :: pre, i, h => by
      have ht : t = TaskOutcome.ok := h t (List.mem_cons_self t pre)
      subst ht
      have ih := consume_first_fail total msg post pre (i + 1)
        (fun x hx => h x (List.mem_cons_of_mem _ hx))
      simp [consumeFrom, cancelHit, okEvents, ih]

/-- Consuming with the flag set from absolute iteration `i + n`, after `n`
successful consumptions starting at iteration `i`, breaks with
`Terminal.canceled` and emits nothing further. -/
theorem consume_cancel (total : ℕ) :
    ∀ (n : ℕ) (ts : List TaskOutcome) (i : ℕ), (∀ t ∈ ts.take n, t = TaskOutcome.ok) →
      n < ts.length →
      consumeFrom total (some (i + n)) i ts = (okEvents total i n, Terminal.canceled)
  | 0, [], _, _, hlen => absurd hlen (by simp)
  | 0, _ :: _, i, _, _ => by
      simp [consumeFrom, cancelHit, okEvents]
  | n + 1, [], _, _, hlen => absurd hlen (by simp)
  | n + 1, t :: rest, i, h, hlen => by
      have ht : t = TaskOutcome.ok := h t (by simp [List.take_succ_cons])
      subst ht
      have hcancel : cancelHit (some ((i + 1) + n)) i = false := by
        simp [cancelHit]
        omega
      have hi : i + (n + 1) = (i + 1) + n := by omega
      have ih := consume_cancel total n rest (i + 1)
        (fun x hx => h x (by simp [List.take_succ_cons, hx]))
        (by simpa using hlen)
      simp [consumeFrom, hcancel, okEvents, hi, ih]

/-- `okEvents` contains no error events. -/
theorem errorMessages_okEvents (total : ℕ) :
    ∀ (n i : ℕ), errorMessages (okEvents total i n) = []
  | 0, _ => rfl
  | n + 1, i => by
      simp [okEvents, errorMessages, List.filterMap_cons]
      simpa [errorMessages] using errorMessages_okEvents total n (i + 1)

/-- The progress values inside `okEvents`. -/
theorem progressEvents_okEvents (total : ℕ) :
    ∀ (n i : ℕ), progressEvents (okEvents total i n) =
      (List.range n).map (fun j => progressValue (i + j + 1) total)
  | 0, _ => rfl
  | n + 1, i => by
      have ih := progressEvents_okEvents total n (i + 1)
      simp only [okEvents, progressEvents, List.filterMap_cons] at ih ⊢
      rw [ih, List.range_succ_eq_map, List.map_cons, List.map_map]
      refine congrArg₂ _ (by simp) ?_
      refine List.map_congr_left (fun a _ => ?_)
      simp [Function.comp]
      ring_nf

/-- `workerRun` on an all-successful batch with the flag never set. -/
theorem workerRun_all_ok (tasks : List TaskOutcome)
    (hok : ∀ t ∈ tasks, t = TaskOutcome.ok) :
    workerRun tasks none =
      ⟨okEvents tasks.length 0 tasks.length ++ [Event.finished], tasks.length,
        Terminal.completed⟩ := by
  unfold workerRun
  rw [consume_all_ok tasks.length tasks 0 hok]

/-- `workerRun` on a batch whose first consumed failure follows `pre`
successes, flag never set. -/
theorem workerRun_first_fail (pre post : List TaskOutcome) (msg : String)
    (hpre : ∀ t ∈ pre, t = TaskOutcome.ok) :
    workerRun (pre ++ TaskOutcome.fail msg :: post) none =
      ⟨okEvents (pre ++ TaskOutcome.fail msg :: post).length 0 pre.length ++
          [Event.error_occurred msg],
        (pre ++ TaskOutcome.fail msg :: post).length, Terminal.failed msg⟩ := by
  unfold workerRun
  rw [consume_first_fail _ msg post pre 0 hpre]

/-- `workerRun` when the flag is set before consuming completion `k`
(`k` earlier completions all successful, `k` strictly below the batch
size so the flag is actually observed). -/
theorem workerRun_cancel (tasks : List TaskOutcome) (k : ℕ)
    (hk : k < tasks.length) (hpre : ∀ t ∈ tasks.take k, t = TaskOutcome.ok) :
    workerRun tasks (some k) =
      ⟨okEvents tasks.length 0 k ++ [Event.finished], tasks.length,
        Terminal.canceled⟩ := by
  unfold workerRun
  rw [show (some k) = some (0 + k) from by rw [Nat.zero_add],
    consume_cancel tasks.length k tasks 0 hpre hk]

/-- `errorMessages` distributes over append. -/
theorem errorMessages_append (l1 l2 : List Event) :
    errorMessages (l1 ++ l2) = errorMessages l1 ++ errorMessages l2 := by
  simp [errorMessages, List.filterMap_append]

/-- `progressEvents` distributes over append. -/
theorem progressEvents_append (l1 l2 : List Event) :
    progressEvents (l1 ++ l2) = progressEvents l1 ++ progressEvents l2 := by
  simp [progressEvents, List.filterMap_append]

/-- `okEvents` contains exactly one ETA event per consumed completion. -/
theorem count_eta_okEvents (total : ℕ) :
    ∀ (n i : ℕ), (okEvents total i n).count Event.eta_updated = n
  | 0, _ => rfl
  | n + 1, i => by
      simp [okEvents, List.count_cons, count_eta_okEvents total n (i + 1)]

/-- The progress fraction is floor division: `⌊(k / total) * 100⌋ = k * 100 / total`. -/
theorem progressValue_eq_div (k total : ℕ) :
    progressValue k total = ((k * 100 / total : ℕ) : ℤ) := by
  unfold progressValue
  rw [show ((k : ℚ) / (total : ℚ)) * 100 =
      (((k * 100 : ℕ) : ℤ) : ℚ) / ((total : ℕ) : ℚ) from by push_cast; ring]
  rw [Rat.floor_intCast_div_natCast, Int.natCast_ediv]
  rfl

/-- The concrete batch refuting C1's per-failed-file message count: 10
files in completion order with the 4th and 7th failing. -/
def c1_tasks : List TaskOutcome :=
  [TaskOutcome.ok, TaskOutcome.ok, TaskOutcome.ok, TaskOutcome.fail "e4",
   TaskOutcome.ok, TaskOutcome.ok, TaskOutcome.fail "e7", TaskOutcome.ok,
   TaskOutcome.ok, TaskOutcome.ok]


/-- C1 counterexample: a 10-file batch with 2 failed files produces exactly
one error message (the first consumed failure), not one message per failed
file, because `future.result()` re-raises into `run`'s outer `except` and
ends the consumption loop. -/
theorem C1_counterexample :
    countFailures c1_tasks = 2 ∧
    errorMessages (workerRun c1_tasks none).events = ["e4"] ∧
    (errorMessages (workerRun c1_tasks none).events).length ≠ countFailures c1_tasks := by
  have h := workerRun_first_fail [TaskOutcome.ok, TaskOutcome.ok, TaskOutcome.ok]
    [TaskOutcome.ok, TaskOutcome.ok, TaskOutcome.fail "e7", TaskOutcome.ok,
     TaskOutcome.ok, TaskOutcome.ok] "e4" (by decide)
  have he : ([TaskOutcome.ok, TaskOutcome.ok, TaskOutcome.ok] ++ TaskOutcome.fail "e4" ::
      [TaskOutcome.ok, TaskOutcome.ok, TaskOutcome.fail "e7", TaskOutcome.ok,
       TaskOutcome.ok, TaskOutcome.ok]) = c1_tasks := rfl
  rw [he] at h
  have hev : (workerRun c1_tasks none).events =
      okEvents c1_tasks.length 0 3 ++ [Event.error_occurred "e4"] := by
    rw [h]
    rfl
  have hmsg : errorMessages (workerRun c1_tasks none).events = ["e4"] := by
    rw [hev, errorMessages_append, errorMessages_okEvents]
    rfl
  exact ⟨by decide, hmsg, by rw [hmsg]; decide⟩

/-- C1 (amended): a per-file failure is re-raised by `future.result()` into
`run`'s outer `except`, ending the completion-consumption loop: the run
terminates in the failed state carrying the first consumed failure, exactly
one error message is emitted regardless of how many files failed, no
progress events are emitted beyond the successes consumed before the
failure — but every submitted task is still executed to completion by the
pool before `run` returns. -/
theorem C1_per_file_failure (pre post : List TaskOutcome) (msg : String)
    (hpre : ∀ t ∈ pre, t = TaskOutcome.ok) :
    (workerRun (pre ++ TaskOutcome.fail msg :: post) none).terminal =
      Terminal.failed msg ∧
    errorMessages (workerRun (pre ++ TaskOutcome.fail msg :: post) none).events =
      [msg] ∧
    (workerRun (pre ++ TaskOutcome.fail msg :: post) none).executed =
      (pre ++ TaskOutcome.fail msg :: post).length ∧
    (workerRun (pre ++ TaskOutcome.fail msg :: post) none).events =
      okEvents (pre ++ TaskOutcome.fail msg :: post).length 0 pre.length ++
        [Event.error_occurred msg] := by
  have h := workerRun_first_fail pre post msg hpre
  rw [h]
  refine ⟨rfl, ?_, rfl, rfl⟩
  show errorMessages (okEvents _ 0 pre.length ++ [Event.error_occurred msg]) = [msg]
  rw [errorMessages_append, errorMessages_okEvents]
  rfl

/-- C1 witness: the spec's example — 10 files with exactly the 4th (in
completion order) failing — yields the failed terminal state, exactly one
error message, and all 10 submitted tasks executed. -/
theorem C1_per_file_failure_witness :
    (workerRun ([TaskOutcome.ok, TaskOutcome.ok, TaskOutcome.ok] ++
        TaskOutcome.fail "boom" :: [TaskOutcome.ok, TaskOutcome.ok, TaskOutcome.ok,
          TaskOutcome.ok, TaskOutcome.ok, TaskOutcome.ok]) none).terminal =
      Terminal.failed "boom" ∧
    errorMessages (workerRun ([TaskOutcome.ok, TaskOutcome.ok, TaskOutcome.ok] ++
        TaskOutcome.fail "boom" :: [TaskOutcome.ok, TaskOutcome.ok, TaskOutcome.ok,
          TaskOutcome.ok, TaskOutcome.ok, TaskOutcome.ok]) none).events = ["boom"] ∧
    (workerRun ([TaskOutcome.ok, TaskOutcome.ok, TaskOutcome.ok] ++
        TaskOutcome.fail "boom" :: [TaskOutcome.ok, TaskOutcome.ok, TaskOutcome.ok,
          TaskOutcome.ok, TaskOutcome.ok, TaskOutcome.ok]) none).executed =
      ([TaskOutcome.ok, TaskOutcome.ok, TaskOutcome.ok] ++
        TaskOutcome.fail "boom" :: [TaskOutcome.ok, TaskOutcome.ok, TaskOutcome.ok,
          TaskOutcome.ok, TaskOutcome.ok, TaskOutcome.ok]).length ∧
    (workerRun ([TaskOutcome.ok, TaskOutcome.ok, TaskOutcome.ok] ++
        TaskOutcome.fail "boom" :: [TaskOutcome.ok, TaskOutcome.ok, TaskOutcome.ok,
          TaskOutcome.ok, TaskOutcome.ok, TaskOutcome.ok]) none).events =
      okEvents ([TaskOutcome.ok, TaskOutcome.ok, TaskOutcome.ok] ++
          TaskOutcome.fail "boom" :: [TaskOutcome.ok, TaskOutcome.ok, TaskOutcome.ok,
            TaskOutcome.ok, TaskOutcome.ok, TaskOutcome.ok]).length 0
        [TaskOutcome.ok, TaskOutcome.ok, TaskOutcome.ok].length ++
        [Event.error_occurred "boom"] :=
  C1_per_file_failure [TaskOutcome.ok, TaskOutcome.ok, TaskOutcome.ok]
    [TaskOutcome.ok, TaskOutcome.ok, TaskOutcome.ok, TaskOutcome.ok, TaskOutcome.ok,
     TaskOutcome.ok] "boom" (by decide)

/-- C2: once the cancellation flag is observed at a completion-consumption
point (set from before the `k`-th consumption, `k` within the batch), the
loop breaks: the run's events are exactly the progress/ETA pairs of the `k`
completions consumed before the flag was observed followed by the single
`finished` signal — so no progress or ETA event is emitted after the flag
is observed — the pool still executes all submitted tasks to completion
before `run` returns, and the run ends in the canceled terminal state. -/
theorem C2_cancellation (tasks : List TaskOutcome) (k : ℕ)
    (hk : k < tasks.length) (hpre : ∀ t ∈ tasks.take k, t = TaskOutcome.ok) :
    (workerRun tasks (some k)).terminal = Terminal.canceled ∧
    (workerRun tasks (some k)).executed = tasks.length ∧
    (workerRun tasks (some k)).events =
      okEvents tasks.length 0 k ++ [Event.finished] ∧
    progressEvents (workerRun tasks (some k)).events =
      (List.range k).map (fun j => progressValue (j + 1) tasks.length) ∧
    (workerRun tasks (some k)).events.count Event.eta_updated = k ∧
    errorMessages (workerRun tasks (some k)).events = [] := by
  have h := workerRun_cancel tasks k hk hpre
  rw [h]
  refine ⟨rfl, rfl, rfl, ?_, ?_, ?_⟩
  · show progressEvents (okEvents tasks.length 0 k ++ [Event.finished]) = _
    rw [progressEvents_append, progressEvents_okEvents]
    simp [progressEvents]
  · show (okEvents tasks.length 0 k ++ [Event.finished]).count Event.eta_updated = k
    rw [List.count_append, count_eta_okEvents]
    rfl
  · show errorMessages (okEvents tasks.length 0 k ++ [Event.finished]) = []
    rw [errorMessages_append, errorMessages_okEvents]
    rfl

/-- C2 witness: the spec's example — cancellation observed after 3 of 10
completions. -/
theorem C2_cancellation_witness :
    (workerRun [TaskOutcome.ok, TaskOutcome.ok, TaskOutcome.ok, TaskOutcome.ok,
        TaskOutcome.ok, TaskOutcome.ok, TaskOutcome.ok, TaskOutcome.ok, TaskOutcome.ok,
        TaskOutcome.ok] (some 3)).terminal = Terminal.canceled ∧
    (workerRun [TaskOutcome.ok, TaskOutcome.ok, TaskOutcome.ok, TaskOutcome.ok,
        TaskOutcome.ok, TaskOutcome.ok, TaskOutcome.ok, TaskOutcome.ok, TaskOutcome.ok,
        TaskOutcome.ok] (some 3)).executed =
      ([TaskOutcome.ok, TaskOutcome.ok, TaskOutcome.ok, TaskOutcome.ok, TaskOutcome.ok,
        TaskOutcome.ok, TaskOutcome.ok, TaskOutcome.ok, TaskOutcome.ok,
        TaskOutcome.ok] : List TaskOutcome).length ∧
    (workerRun [TaskOutcome.ok, TaskOutcome.ok, TaskOutcome.ok, TaskOutcome.ok,
        TaskOutcome.ok, TaskOutcome.ok, TaskOutcome.ok, TaskOutcome.ok, TaskOutcome.ok,
        TaskOutcome.ok] (some 3)).events =
      okEvents ([TaskOutcome.ok, TaskOutcome.ok, TaskOutcome.ok, TaskOutcome.ok,
        TaskOutcome.ok, TaskOutcome.ok, TaskOutcome.ok, TaskOutcome.ok, TaskOutcome.ok,
        TaskOutcome.ok] : List TaskOutcome).length 0 3 ++ [Event.finished] ∧
    progressEvents (workerRun [TaskOutcome.ok, TaskOutcome.ok, TaskOutcome.ok,
        TaskOutcome.ok, TaskOutcome.ok, TaskOutcome.ok, TaskOutcome.ok, TaskOutcome.ok,
        TaskOutcome.ok, TaskOutcome.ok] (some 3)).events =
      (List.range 3).map (fun j => progressValue (j + 1)
        ([TaskOutcome.ok, TaskOutcome.ok, TaskOutcome.ok, TaskOutcome.ok, TaskOutcome.ok,
          TaskOutcome.ok, TaskOutcome.ok, TaskOutcome.ok, TaskOutcome.ok,
          TaskOutcome.ok] : List TaskOutcome).length) ∧
    (workerRun [TaskOutcome.ok, TaskOutcome.ok, TaskOutcome.ok, TaskOutcome.ok,
        TaskOutcome.ok, TaskOutcome.ok, TaskOutcome.ok, TaskOutcome.ok, TaskOutcome.ok,
        TaskOutcome.ok] (some 3)).events.count Event.eta_updated = 3 ∧
    errorMessages (workerRun [TaskOutcome.ok, TaskOutcome.ok, TaskOutcome.ok,
        TaskOutcome.ok, TaskOutcome.ok, TaskOutcome.ok, TaskOutcome.ok, TaskOutcome.ok,
        TaskOutcome.ok, TaskOutcome.ok] (some 3)).events = [] :=
  C2_cancellation [TaskOutcome.ok, TaskOutcome.ok, TaskOutcome.ok, TaskOutcome.ok,
    TaskOutcome.ok, TaskOutcome.ok, TaskOutcome.ok, TaskOutcome.ok, TaskOutcome.ok,
    TaskOutcome.ok] 3 (by decide) (by decide)

/-- Splitting the consumption loop after `k` leading successes. -/
theorem consume_split (total : ℕ) :
    ∀ (k : ℕ) (ts : List TaskOutcome) (i : ℕ), (∀ t ∈ ts.take k, t = TaskOutcome.ok) →
      k ≤ ts.length →
      consumeFrom total none i ts =
        (okEvents total i k ++ (consumeFrom total none (i + k) (ts.drop k)).1,
         (consumeFrom total none (i + k) (ts.drop k)).2)
  | 0, ts, i, _, _ => by simp [okEvents]
  | k + 1, [], _, _, hlen => by simp at hlen
  | k + 1, t :: rest, i, h, hlen => by
      have ht : t = TaskOutcome.ok := h t (by simp [List.take_succ_cons])
      subst ht
      have ih := consume_split total k rest (i + 1)
        (fun x hx => h x (by simp [List.take_succ_cons, hx]))
        (by simpa using hlen)
      have hi : (i + 1) + k = i + (k + 1) := by omega
      simp [consumeFrom, cancelHit, okEvents, hi, ih]

/-- Whatever the loop's outcome, `run` appends exactly one final event
(`finished` or `error_occurred`) after the loop's events, and that final
event is not a progress event. -/
theorem workerRun_events (tasks : List TaskOutcome) (cf : Option ℕ) :
    ∃ e, (workerRun tasks cf).events =
        (consumeFrom tasks.length cf 0 tasks).1 ++ [e] ∧
      progressEvents [e] = [] := by
  unfold workerRun
  rcases hc : consumeFrom tasks.length cf 0 tasks with ⟨evs, term⟩
  cases term
  · exact ⟨Event.finished, rfl, rfl⟩
  · exact ⟨Event.finished, rfl, rfl⟩
  · exact ⟨Event.error_occurred _, rfl, rfl⟩

/-- C3 (amended): the progress fraction emitted after the `k`-th consumed
completion (all `k` of them successful, `1 ≤ k ≤ total`) is the floor
`⌊(k / total) * 100⌋ = k * 100 / total` — `int()` truncates toward zero —
not the ceiling. -/
theorem C3_progress_floor (tasks : List TaskOutcome) (k : ℕ)
    (h1 : 1 ≤ k) (h2 : k ≤ tasks.length)
    (hpre : ∀ t ∈ tasks.take k, t = TaskOutcome.ok) :
    (progressEvents (workerRun tasks none).events).get? (k - 1) =
      some (progressValue k tasks.length) ∧
    progressValue k tasks.length = ((k * 100 / tasks.length : ℕ) : ℤ) := by
  refine ⟨?_, progressValue_eq_div k tasks.length⟩
  obtain ⟨e, hev, hpe⟩ := workerRun_events tasks none
  rw [hev, progressEvents_append, hpe, List.append_nil]
  rw [consume_split tasks.length k tasks 0 hpre h2]
  simp only [progressEvents_append, progressEvents_okEvents]
  rw [List.get?_append
    (by simpa using Nat.sub_lt (Nat.lt_of_lt_of_le Nat.zero_lt_one h1) Nat.zero_lt_one)]
  rw [List.get?_map, List.get?_range (Nat.sub_lt (Nat.lt_of_lt_of_le Nat.zero_lt_one h1)
    Nat.zero_lt_one)]
  have hk : k - 1 + 1 = k := by omega
  simp [hk]

/-- C3 witness at `k = 1` in a 3-file batch: the first emitted fraction is
`⌊100 / 3⌋ = 33`. -/
theorem C3_progress_floor_witness :
    (progressEvents (workerRun [TaskOutcome.ok, TaskOutcome.ok, TaskOutcome.ok]
        none).events).get? 0 =
      some (progressValue 1 ([TaskOutcome.ok, TaskOutcome.ok,
        TaskOutcome.ok] : List TaskOutcome).length) ∧
    progressValue 1 ([TaskOutcome.ok, TaskOutcome.ok,
        TaskOutcome.ok] : List TaskOutcome).length =
      ((1 * 100 / ([TaskOutcome.ok, TaskOutcome.ok,
        TaskOutcome.ok] : List TaskOutcome).length : ℕ) : ℤ) :=
  C3_progress_floor [TaskOutcome.ok, TaskOutcome.ok, TaskOutcome.ok] 1
    (by decide) (by decide) (by decide)

/-- C3 counterexample: in a 3-file batch the fraction emitted after the
first completion is `33`, whereas the claimed ceiling `⌈(1/3) * 100⌉` is
`34`. -/
theorem C3_counterexample :
    progressEvents (workerRun [TaskOutcome.ok, TaskOutcome.ok, TaskOutcome.ok]
        none).events = [33, 66, 100] ∧
    progressValue 1 3 = 33 ∧
    ⌈((1 : ℚ) / 3) * 100⌉ = 34 ∧
    (33 : ℤ) ≠ 34 := by
  refine ⟨?_, ?_, ?_, by decide⟩
  · have h := workerRun_all_ok [TaskOutcome.ok, TaskOutcome.ok, TaskOutcome.ok] (by decide)
    rw [h]
    show progressEvents (okEvents 3 0 3 ++ [Event.finished]) = [33, 66, 100]
    rw [progressEvents_append, progressEvents_okEvents]
    simp only [progressValue_eq_div]
    decide
  · rw [progressValue_eq_div]
    decide
  · rw [show ((1 : ℚ) / 3) * 100 = 100 / 3 from by norm_num, Int.ceil_eq_iff]
    norm_num

/-- C5 witness: the concrete example tree. -/
theorem C5_collector_witness :
    collect_files example_config
        [["a.png"], ["b.jpg"], ["c.txt"], ["jackpressed"], ["jackpressed", "old.png"]] =
      [["a.png"], ["b.jpg"]] := C5_collector.2

/-- C10 witness at a fresh tracker (`total = 10`, `processed = 0`) and
elapsed time 5. -/
theorem C10_tracker_guard_dead_witness :
    ((ProgressTracker.mk 10 0).update 5).1.processed = 0 + 1 ∧
    0 + 1 ≠ 0 ∧
    1 ≤ ((ProgressTracker.mk 10 0).update 5).1.processed ∧
    ((ProgressTracker.mk 10 0).update 5).2 ≠ EtaMessage.calculating ∧
    ((ProgressTracker.mk 10 0).update 5).2 = EtaMessage.eta ((5 / ((0 + 1 : ℕ) : ℚ)) *
      (((10 : ℕ) : ℚ) - ((0 + 1 : ℕ) : ℚ))) :=
  C10_tracker_guard_dead ⟨10, 0⟩ 5
